import Mathlib

/-!
Verification of the Financial Analysis System (insurance quote comparison).

The repository is a Next.js frontend plus a thin FastAPI backend that turns
uploaded insurance-quote PDFs into a structured comparison.  The frontend API
client (`lib/api.ts`, also shipped as `frontend-integration/api.ts`) and the
upload page are embedded here directly from the TypeScript source.  The
backend pipeline (extraction adapter, field extractor, comparison aggregator,
report renderer) is not part of the shipped sources; where a property depends
on it, the relevant component is modelled from the specification, and each
such definition is marked `Modelled from the spec:` in its doc comment.
-/

/- ### Frontend API client (src/unnamed/part_006, src/frontend-integration/api.ts) -/

/-- The hardcoded demo bearer token, `AUTH_TOKEN = 'demo-token'` in `api.ts`. -/
def AUTH_TOKEN : String := "demo-token"

/-- `ApiResponse<T>`: either a `data` value or an `error` string. -/
structure ApiResponse (T : Type) where
  data : Option T
  error : Option String
deriving Repr, DecidableEq

/-- Everything the `fetch` call inside `InsuranceAPI.request` can come back
with: either the fetch itself throws (network failure), or it yields a
response with an `ok` flag, a numeric `status`, an optional `detail` field of
the error JSON (`errorData.detail`, `none` when the error body is not JSON, as
produced by `.catch(() => ({}))`), and a body that parses to a `T` or makes
`response.json()` throw with some message. -/
inductive FetchOutcome (T : Type) where
  | networkFailure (msg : String)
  | response (ok : Bool) (status : Nat) (detail : Option String) (body : Except String T)

namespace InsuranceAPI

/-- `InsuranceAPI.request`: wraps the whole fetch in `try`/`catch`.  A non-OK
response throws `new Error(errorData.detail || 'HTTP error! status: N')`,
a body that fails to parse throws, and every thrown error is caught and
returned as `{ error }`; a parsed body of an OK response is returned as
`{ data }`. -/
def request {T : Type} (o : FetchOutcome T) : ApiResponse T :=
  match o with
  | .networkFailure msg => ⟨none, some msg⟩
  | .response ok status detail body =>
    if ok then
      match body with
      | .ok d => ⟨some d, none⟩
      | .error msg => ⟨none, some msg⟩
    else
      ⟨none, some (detail.getD ("HTTP error! status: " ++ toString status))⟩

/-- `InsuranceAPI.uploadQuotes`: same `try`/`catch` shape as `request`, with
the multipart `fetch` and the default message `'Upload failed: N'` for a
non-OK status. -/
def uploadQuotes {T : Type} (o : FetchOutcome T) : ApiResponse T :=
  match o with
  | .networkFailure msg => ⟨none, some msg⟩
  | .response ok status detail body =>
    if ok then
      match body with
      | .ok d => ⟨some d, none⟩
      | .error msg => ⟨none, some msg⟩
    else
      ⟨none, some (detail.getD ("Upload failed: " ++ toString status))⟩

end InsuranceAPI

/-- Header lists are JavaScript object literals: a later entry for the same
key overrides an earlier one, so the effective value of a key is the last
entry carrying it. -/
def headerValue (hs : List (String × String)) (k : String) : Option String :=
  hs.reverse.lookup k

/-- The header object built inside `InsuranceAPI.request`:
`{ 'Content-Type': 'application/json', 'Authorization': 'Bearer ' + token,
...options.headers }`. -/
def requestHeaders (authToken : String) (optionHeaders : List (String × String)) :
    List (String × String) :=
  [("Content-Type", "application/json"), ("Authorization", "Bearer " ++ authToken)]
    ++ optionHeaders

/-- The header object built inside `InsuranceAPI.uploadQuotes`:
`{ 'Authorization': 'Bearer ' + token }` (multipart, so no Content-Type). -/
def uploadHeaders (authToken : String) : List (String × String) :=
  [("Authorization", "Bearer " ++ authToken)]

/-- The public methods of the `InsuranceAPI` class, with their parameters. -/
inductive ApiMethod where
  | healthCheck
  | uploadQuotesCall
  | getComparison (comparisonId : String)
  | getUserQuotes
  | getUserStats
  | generateReport (comparisonId : String)

/-- The headers each `InsuranceAPI` method sends.  Every method other than
`uploadQuotes` goes through `request` passing no `headers` option
(`generateReport` passes only `method: 'POST'`), so it sends exactly
`requestHeaders`; `uploadQuotes` calls `fetch` directly with
`uploadHeaders`. -/
def issuedHeaders (authToken : String) : ApiMethod → List (String × String)
  | .uploadQuotesCall => uploadHeaders authToken
  | .healthCheck => requestHeaders authToken []
  | .getComparison _ => requestHeaders authToken []
  | .getUserQuotes => requestHeaders authToken []
  | .getUserStats => requestHeaders authToken []
  | .generateReport _ => requestHeaders authToken []

/-- Modelled from the spec: the backend authentication check is missing from
the shipped sources; per the spec it is a comparison of the bearer token
against the single static value. -/
def verifyBearer (authorizationHeader : String) : Bool :=
  authorizationHeader == "Bearer " ++ AUTH_TOKEN

/- ### Upload page file filter (src/unnamed/part_001, handleDrop / handleFileSelect) -/

/-- A browser `File` as the upload page sees it: name, MIME type, byte size. -/
structure WebFile where
  name : String
  type : String
  size : Nat
deriving Repr, DecidableEq

/-- `20 * 1024 * 1024`, the per-file size limit on the upload page. -/
def MAX_FILE_SIZE : Nat := 20 * 1024 * 1024

/-- The predicate of the filter in `handleDrop` and `handleFileSelect`:
`file.type === 'application/pdf' && file.size <= 20 * 1024 * 1024`. -/
def acceptFile (f : WebFile) : Bool :=
  f.type == "application/pdf" && f.size ≤ MAX_FILE_SIZE

/-- The filter applied to the dropped / selected file list before anything is
added to the selection state. -/
def filterAcceptedFiles (files : List WebFile) : List WebFile :=
  files.filter acceptFile

/-- `setSelectedFiles(prev => [...prev, ...files])`, executed only when the
filtered list is non-empty. -/
def addSelectedFiles (prev incoming : List WebFile) : List WebFile :=
  let files := filterAcceptedFiles incoming
  if files.length > 0 then prev ++ files else prev

/- ### Backend data model (shapes from api.ts; pipeline modelled from the spec) -/

/-- `PolicySection` as in `api.ts`: per coverage-area record. -/
structure PolicySection where
  included : String
  premium : String
  sum_insured : String
  sub_sections : List String
  excess : String
deriving Repr, DecidableEq

/-- `QuoteResult` as in `api.ts`: one uploaded document, extracted. -/
structure QuoteResult where
  quote_number : Nat
  vendor : String
  total_premium : String
  payment_terms : String
  contact_phone : String
  contact_email : String
  risk_address : String
  client_details : String
  quote_reference : String
  quote_date : String
  policy_sections : List (String × PolicySection)
deriving Repr, DecidableEq

/-- A Comparison record: identifier, status, file names, quotes, report
metadata (shape from `QuoteSummary` in `api.ts` plus the quote list the
compare endpoint serves). -/
structure Comparison where
  comparison_id : String
  created_at : Nat
  status : String
  file_names : List String
  quotes : List QuoteResult
  report_generated : Bool
  report_filename : Option String
  report_generated_at : Option Nat
deriving Repr, DecidableEq

/-- Per-file extraction outcome fed to the aggregator: either a fully
extracted record or a typed failure. -/
inductive ExtractionOutcome where
  | ok (vendor total_premium : String) (sections : List (String × PolicySection))
  | failed (message : String)
deriving Repr, DecidableEq

/-- Modelled from the spec: the Comparison Aggregator is not under the
shipped sources.  Per the spec, a failure for one file is recorded inline in
the batch result with an explanatory placeholder rather than aborting the
batch.  `quoteForFile i name outcome` is the Quote entry for the `i`-th
uploaded file (quote numbers are 1-based). -/
def quoteForFile (i : Nat) (name : String) (outcome : ExtractionOutcome) : QuoteResult :=
  match outcome with
  | .ok vendor total_premium sections =>
    { quote_number := i + 1, vendor := vendor, total_premium := total_premium
      payment_terms := "", contact_phone := "", contact_email := ""
      risk_address := "", client_details := "", quote_reference := ""
      quote_date := "", policy_sections := sections }
  | .failed _message =>
    { quote_number := i + 1, vendor := "Extraction failed: " ++ name
      total_premium := "unknown", payment_terms := "", contact_phone := ""
      contact_email := "", risk_address := "", client_details := ""
      quote_reference := "", quote_date := "", policy_sections := [] }

/-- The upload-order quote list for a batch: one entry per file, in file
order, starting at index `k`. -/
def quotesFrom (k : Nat) : List (String × ExtractionOutcome) → List QuoteResult
  | [] => []
  | (name, outcome) :: rest => quoteForFile k name outcome :: quotesFrom (k + 1) rest

/-- Modelled from the spec: the full upload-order quote list of a batch. -/
def uploadResults (files : List (String × ExtractionOutcome)) : List QuoteResult :=
  quotesFrom 0 files

/-- Pair each element of a list with its index, starting at `k`. -/
def withKeys {α : Type} (k : Nat) : List α → List (Nat × α)
  | [] => []
  | a :: rest => (k, a) :: withKeys (k + 1) rest

/-- Modelled from the spec: per-file extractions may complete in any order;
a completion set is the upload-order quote list tagged with file indices,
observed in some arbitrary completion order (a permutation of
`taggedResults`). -/
def taggedResults (files : List (String × ExtractionOutcome)) : List (Nat × QuoteResult) :=
  withKeys 0 (uploadResults files)

/-- Find the completed quote for file index `i` in a completion set. -/
def resultAt (completions : List (Nat × QuoteResult)) (i : Nat) : Option QuoteResult :=
  match completions with
  | [] => none
  | (j, q) :: rest => if j = i then some q else resultAt rest i

/-- Modelled from the spec: results "must be reassembled in the original file
order for deterministic output" — the Comparison quote list is rebuilt by
file index from the completion set. -/
def assembleQuotes (n : Nat) (completions : List (Nat × QuoteResult)) : List QuoteResult :=
  (List.range' 0 n).filterMap (resultAt completions)

/- #### Lemmas about reassembly -/

theorem quotesFrom_length (k : Nat) :
    ∀ files : List (String × ExtractionOutcome), (quotesFrom k files).length = files.length := by
  intro files
  induction files generalizing k with
  | nil => simp [quotesFrom]
  | cons f rest ih => simpa [quotesFrom] using ih (k + 1)

theorem withKeys_map_fst {α : Type} (k : Nat) :
    ∀ l : List α, (withKeys k l).map Prod.fst = List.range' k l.length := by
  intro l
  induction l generalizing k with
  | nil => simp [withKeys]
  | cons a rest ih => simpa [withKeys, List.range'_succ] using ih (k + 1)

theorem resultAt_perm {l₁ l₂ : List (Nat × QuoteResult)} (h : l₁.Perm l₂)
    (nd : (l₁.map Prod.fst).Nodup) : ∀ i, resultAt l₁ i = resultAt l₂ i := by
  induction h with
  | nil => intro i; rfl
  | cons x _ ih =>
    intro i
    obtain ⟨j, q⟩ := x
    simp only [List.map_cons, List.nodup_cons] at nd
    simp only [resultAt]
    rw [ih nd.2 i]
  | swap x y l =>
    intro i
    obtain ⟨j₁, q₁⟩ := x
    obtain ⟨j₂, q₂⟩ := y
    simp only [List.map_cons, List.nodup_cons, List.mem_cons] at nd
    by_cases h₁ : j₁ = i <;> by_cases h₂ : j₂ = i <;>
      simp_all [resultAt]
  | trans h₁₂ _ ih₁₂ ih₂₃ =>
    intro i
    rw [ih₁₂ nd i]
    exact ih₂₃ ((h₁₂.map Prod.fst).nodup_iff.mp nd) i

theorem resultAt_withKeys_lt {qs : List QuoteResult} :
    ∀ (k i : Nat), i < k → resultAt (withKeys k qs) i = none := by
  induction qs with
  | nil => intro k i _; rfl
  | cons q rest ih =>
    intro k i hik
    simp only [withKeys, resultAt]
    rw [if_neg (by omega)]
    exact ih (k + 1) i (by omega)

theorem assembleQuotes_withKeys :
    ∀ (qs : List QuoteResult) (k : Nat),
      (List.range' k qs.length).filterMap (resultAt (withKeys k qs)) = qs := by
  intro qs
  induction qs with
  | nil => intro k; simp [withKeys]
  | cons q rest ih =>
    intro k
    rw [List.length_cons, List.range'_succ, List.filterMap_cons]
    have hhead : resultAt (withKeys k (q :: rest)) k = some q := by
      simp [withKeys, resultAt]
    rw [hhead]
    have htail : ∀ i ∈ List.range' (k + 1) rest.length,
        resultAt (withKeys k (q :: rest)) i = resultAt (withKeys (k + 1) rest) i := by
      intro i hi
      have hk : k + 1 ≤ i := (List.mem_range'_1.mp hi).1
      simp only [withKeys, resultAt]
      rw [if_neg (by omega)]
    rw [List.filterMap_congr htail, ih (k + 1)]

/- ### Currency strings: normalization, parsing, formatting -/

/-- The character of a single decimal digit. -/
def digitChar : Nat → Char
  | 0 => '0'
  | 1 => '1'
  | 2 => '2'
  | 3 => '3'
  | 4 => '4'
  | 5 => '5'
  | 6 => '6'
  | 7 => '7'
  | 8 => '8'
  | 9 => '9'
  | _ => '0'

/-- The numeric value of a digit character. -/
def digitVal (c : Char) : Nat := c.toNat - 48

/-- Little-endian decimal digits, by fuel-bounded recursion (the fuel makes
the definition structurally recursive, hence kernel-evaluable). -/
def natDigitsRevAux : Nat → Nat → List Nat
  | 0, _ => []
  | _ + 1, 0 => []
  | fuel + 1, n + 1 => ((n + 1) % 10) :: natDigitsRevAux fuel ((n + 1) / 10)

/-- Little-endian decimal digits of a natural number. -/
def natDigitsRev (n : Nat) : List Nat := natDigitsRevAux n n

/-- Big-endian decimal digit characters of a natural number. -/
def natDigits (n : Nat) : List Char :=
  if n = 0 then ['0'] else (natDigitsRev n).reverse.map digitChar

theorem natDigitsRevAux_eq_digits :
    ∀ (fuel n : Nat), n ≤ fuel → natDigitsRevAux fuel n = Nat.digits 10 n := by
  intro fuel
  induction fuel with
  | zero => intro n hn; interval_cases n; simp [natDigitsRevAux]
  | succ fuel ih =>
    intro n hn
    match n with
    | 0 => simp [natDigitsRevAux]
    | m + 1 =>
      rw [natDigitsRevAux, ih ((m + 1) / 10) (by omega)]
      conv_rhs => rw [Nat.digits_def' (b := 10) (by omega) (Nat.succ_pos m)]

theorem natDigitsRev_eq_digits (n : Nat) : natDigitsRev n = Nat.digits 10 n :=
  natDigitsRevAux_eq_digits n n le_rfl

/-- Insert a thousands separator after every three characters of a reversed
digit list. -/
def groupAux : List Char → List Char
  | [] => []
  | [a] => [a]
  | [a, b] => [a, b]
  | [a, b, c] => [a, b, c]
  | a :: b :: c :: d :: rest => a :: b :: c :: ',' :: groupAux (d :: rest)

/-- Group a big-endian digit list with thousands separators (from the right). -/
def group3 (cs : List Char) : List Char := (groupAux cs.reverse).reverse

/-- Exactly two digit characters for the cents part (`k < 100`). -/
def pad2 (k : Nat) : List Char := [digitChar (k / 10), digitChar (k % 10)]

/-- Modelled from the spec: monetary values are normalized to a consistent
currency-string representation, currency symbol plus thousands separators
(e.g. `R3,250.50`).  The amount is held in cents. -/
def formatCents (n : Nat) : String :=
  ⟨'R' :: (group3 (natDigits (n / 100)) ++ '.' :: pad2 (n % 100))⟩

/-- Numeric value of a big-endian digit-character list. -/
def fromDigits (cs : List Char) : Nat := cs.foldl (fun a c => 10 * a + digitVal c) 0

/-- Characters kept by the tolerant numeric parser: everything except the
formatting variance (spaces, thousands separators). -/
def keepChar (c : Char) : Bool := c != ' ' && c != ','

/-- Drop a leading currency symbol. -/
def stripSymbol (l : List Char) : List Char :=
  if l.head? = some 'R' then l.tail else l

/-- Parse `digits` or `digits.dd` into cents; anything else is not a number. -/
def parseCentsRest (intVal : Nat) : List Char → Option Nat
  | [] => some (100 * intVal)
  | c :: frac =>
    if c == '.' && frac.length == 2 && frac.all Char.isDigit then
      some (100 * intVal + fromDigits frac)
    else none

/-- Parse a cleaned character list into cents. -/
def parseCentsClean (cs : List Char) : Option Nat :=
  if cs.takeWhile Char.isDigit = [] then none
  else parseCentsRest (fromDigits (cs.takeWhile Char.isDigit)) (cs.dropWhile Char.isDigit)

/-- Modelled from the spec: numeric parsing of an extracted premium string,
with tolerance for formatting variance (spaces, commas) and a leading
currency symbol.  Returns the amount in cents, or `none` for a non-numeric
premium such as the `"unknown"` sentinel. -/
def parsePremiumCents (s : String) : Option Nat :=
  parseCentsClean (stripSymbol (s.toList.filter keepChar))

/- #### Digit character facts -/

theorem digitVal_digitChar {d : Nat} (h : d < 10) : digitVal (digitChar d) = d := by
  interval_cases d <;> decide

theorem isDigit_digitChar {d : Nat} (h : d < 10) : (digitChar d).isDigit = true := by
  interval_cases d <;> decide

theorem keepChar_digitChar {d : Nat} (h : d < 10) : keepChar (digitChar d) = true := by
  interval_cases d <;> decide

theorem digitChar_ne_dot {d : Nat} (h : d < 10) : digitChar d ≠ '.' := by
  interval_cases d <;> decide

theorem natDigits_shape (n : Nat) : ∀ c ∈ natDigits n, ∃ d, d < 10 ∧ c = digitChar d := by
  intro c hc
  unfold natDigits at hc
  by_cases h0 : n = 0
  · simp [h0] at hc
    exact ⟨0, by omega, by simp [hc, digitChar]⟩
  · simp only [h0, if_false, natDigitsRev_eq_digits, List.mem_map,
      List.mem_reverse] at hc
    obtain ⟨d, hd, rfl⟩ := hc
    exact ⟨d, Nat.digits_lt_base (by omega) hd, rfl⟩

theorem natDigits_isDigit (n : Nat) : ∀ c ∈ natDigits n, c.isDigit = true := by
  intro c hc
  obtain ⟨d, hd, rfl⟩ := natDigits_shape n c hc
  exact isDigit_digitChar hd

theorem natDigits_keep (n : Nat) : ∀ c ∈ natDigits n, keepChar c = true := by
  intro c hc
  obtain ⟨d, hd, rfl⟩ := natDigits_shape n c hc
  exact keepChar_digitChar hd

theorem natDigits_ne_nil (n : Nat) : natDigits n ≠ [] := by
  unfold natDigits
  by_cases h0 : n = 0
  · simp [h0]
  · simp only [h0, if_false, natDigitsRev_eq_digits, ne_eq, List.map_eq_nil_iff,
      List.reverse_eq_nil_iff]
    exact Nat.digits_ne_nil_iff_ne_zero.mpr h0

/- #### Evaluation of the digit list -/

theorem fromDigits_append_one (cs : List Char) (c : Char) :
    fromDigits (cs ++ [c]) = 10 * fromDigits cs + digitVal c := by
  simp [fromDigits, List.foldl_append]

theorem fromDigits_ofDigits :
    ∀ L : List Nat, (∀ d ∈ L, d < 10) → fromDigits (L.reverse.map digitChar) = Nat.ofDigits 10 L := by
  intro L
  induction L with
  | nil => intro _; simp [fromDigits, Nat.ofDigits_nil]
  | cons d L ih =>
    intro h
    rw [List.reverse_cons, List.map_append, List.map_singleton, fromDigits_append_one,
      ih (fun e he => h e (by simp [he])), Nat.ofDigits_cons,
      digitVal_digitChar (h d (by simp))]
    ring

theorem fromDigits_natDigits (n : Nat) : fromDigits (natDigits n) = n := by
  unfold natDigits
  by_cases h0 : n = 0
  · simp [h0, fromDigits, digitVal]
  · rw [if_neg h0, natDigitsRev_eq_digits, fromDigits_ofDigits (Nat.digits 10 n)
      (fun d hd => Nat.digits_lt_base (by omega) hd), Nat.ofDigits_digits]

/- #### Thousands grouping is transparent to the tolerant parser -/

theorem filter_groupAux (p : Char → Bool) (hp : p ',' = false) :
    ∀ r : List Char, (∀ c ∈ r, p c = true) → (groupAux r).filter p = r
  | [], _ => by simp [groupAux]
  | [a], h => by simp [groupAux, List.filter_cons, h a (by simp)]
  | [a, b], h => by simp [groupAux, List.filter_cons, h a (by simp), h b (by simp)]
  | [a, b, c], h => by
    simp [groupAux, List.filter_cons, h a (by simp), h b (by simp), h c (by simp)]
  | a :: b :: c :: d :: rest, h => by
    have ih := filter_groupAux p hp (d :: rest)
      (fun e he => h e (by simp only [List.mem_cons] at he ⊢; tauto))
    simp [groupAux, List.filter_cons, h a (by simp), h b (by simp), h c (by simp), hp, ih]

theorem filter_group3 (p : Char → Bool) (hp : p ',' = false) (cs : List Char)
    (h : ∀ c ∈ cs, p c = true) : (group3 cs).filter p = cs := by
  unfold group3
  rw [List.filter_reverse, filter_groupAux p hp cs.reverse
    (fun c hc => h c (List.mem_reverse.mp hc)), List.reverse_reverse]

theorem takeWhile_append_all (p : Char → Bool) (l₁ l₂ : List Char)
    (h : ∀ c ∈ l₁, p c = true) : (l₁ ++ l₂).takeWhile p = l₁ ++ l₂.takeWhile p := by
  induction l₁ with
  | nil => simp
  | cons a r ih =>
    simp only [List.cons_append, List.takeWhile_cons, h a (by simp)]
    simpa using ih (fun c hc => h c (by simp [hc]))

theorem dropWhile_append_all (p : Char → Bool) (l₁ l₂ : List Char)
    (h : ∀ c ∈ l₁, p c = true) : (l₁ ++ l₂).dropWhile p = l₂.dropWhile p := by
  induction l₁ with
  | nil => simp
  | cons a r ih =>
    simp only [List.cons_append, List.dropWhile_cons, h a (by simp)]
    simpa using ih (fun c hc => h c (by simp [hc]))

/- #### The parse / format round trip -/

theorem parse_formatCents (n : Nat) : parsePremiumCents (formatCents n) = some n := by
  have hr : n % 100 < 100 := Nat.mod_lt _ (by omega)
  have h10 : n % 100 / 10 < 10 := by omega
  have h1 : n % 100 % 10 < 10 := by omega
  have hP_filter : (pad2 (n % 100)).filter keepChar = pad2 (n % 100) := by
    simp [pad2, List.filter_cons, keepChar_digitChar h10, keepChar_digitChar h1]
  have hfilter :
      (('R' :: (group3 (natDigits (n / 100)) ++ '.' :: pad2 (n % 100))).filter keepChar)
        = 'R' :: (natDigits (n / 100) ++ '.' :: pad2 (n % 100)) := by
    rw [List.filter_cons]
    have hR : keepChar 'R' = true := by decide
    rw [hR, List.filter_append,
      filter_group3 keepChar (by decide) _ (natDigits_keep (n / 100)),
      List.filter_cons]
    have hdot : keepChar '.' = true := by decide
    rw [hdot, hP_filter]
    simp
  have htake : (natDigits (n / 100) ++ '.' :: pad2 (n % 100)).takeWhile Char.isDigit
      = natDigits (n / 100) := by
    rw [takeWhile_append_all Char.isDigit _ _ (natDigits_isDigit (n / 100))]
    simp [List.takeWhile_cons]
  have hdrop : (natDigits (n / 100) ++ '.' :: pad2 (n % 100)).dropWhile Char.isDigit
      = '.' :: pad2 (n % 100) := by
    rw [dropWhile_append_all Char.isDigit _ _ (natDigits_isDigit (n / 100))]
    simp [List.dropWhile_cons]
  have hfracval : fromDigits (pad2 (n % 100)) = n % 100 := by
    simp only [pad2, fromDigits, List.foldl_cons, List.foldl_nil,
      digitVal_digitChar h10, digitVal_digitChar h1]
    omega
  show parseCentsClean (stripSymbol
    ((('R' :: (group3 (natDigits (n / 100)) ++ '.' :: pad2 (n % 100))).filter keepChar)))
      = some n
  rw [hfilter]
  have hstrip : stripSymbol ('R' :: (natDigits (n / 100) ++ '.' :: pad2 (n % 100)))
      = natDigits (n / 100) ++ '.' :: pad2 (n % 100) := by
    simp [stripSymbol]
  rw [hstrip]
  unfold parseCentsClean
  rw [htake, hdrop, if_neg (natDigits_ne_nil (n / 100))]
  have hcond : ('.' == '.' && (pad2 (n % 100)).length == 2
      && (pad2 (n % 100)).all Char.isDigit) = true := by
    simp [pad2, isDigit_digitChar h10, isDigit_digitChar h1]
  simp only [parseCentsRest]
  rw [if_pos hcond, fromDigits_natDigits, hfracval]
  simp only [Option.some.injEq]
  omega

/- ### Stats aggregation (Comparison Aggregator read side) -/

/-- Modelled from the spec: the cents values of the quotes whose premium
string parses to a number; non-numeric premiums (such as the `"unknown"`
sentinel) contribute nothing. -/
def premiumValuesCents (premiums : List String) : List Nat :=
  premiums.filterMap parsePremiumCents

/-- Modelled from the spec: `average_premium` in stats — the average, in
rands, over exactly the parseable premiums; undefined when no premium
parses. -/
def averagePremiumRands (premiums : List String) : Option ℚ :=
  if (premiumValuesCents premiums).length = 0 then none
  else some (((premiumValuesCents premiums).sum : ℚ)
    / (100 * (premiumValuesCents premiums).length))

/-- The `UserStats` shape of `api.ts`, with the average kept as a number. -/
structure UserStatsModel where
  total_quotes : Nat
  completed : Nat
  processing : Nat
  average_premium : Option ℚ

/-- Modelled from the spec: `UserStats` is a derived, read-only aggregate over
all Comparisons, computed on read. -/
def computeUserStats (comparisons : List Comparison) : UserStatsModel :=
  { total_quotes := (comparisons.map (fun c => c.quotes.length)).sum
    completed := (comparisons.filter (fun c => c.status == "completed")).length
    processing := (comparisons.filter (fun c => c.status == "processing")).length
    average_premium := averagePremiumRands
      ((comparisons.map (fun c => c.quotes.map QuoteResult.total_premium)).flatten) }

/- ### Field Extractor (Modelled from the spec) -/

/-- Usable characters of an input text: everything that is not whitespace. -/
def usableCharCount (text : String) : Nat :=
  (text.toList.filter (fun c => !c.isWhitespace)).length

/-- The Field Extractor's typed failure. -/
inductive ExtractError where
  | fieldExtractionFailed
deriving Repr, DecidableEq

/-- Split a character list into lines at newline characters. -/
def splitLinesAux : List Char → List (List Char)
  | [] => [[]]
  | c :: rest =>
    match splitLinesAux rest with
    | [] => [[c]]
    | l :: ls => if c = '\n' then [] :: l :: ls else (c :: l) :: ls

/-- Does `pre` start the list `cs`? -/
def listBeginsWith : List Char → List Char → Bool
  | [], _ => true
  | _ :: _, [] => false
  | p :: ps, c :: cs => p == c && listBeginsWith ps cs

/-- The suffix after the first occurrence of `label`, if any. -/
def afterLabel (label : List Char) : List Char → Option (List Char)
  | [] => if listBeginsWith label [] then some [] else none
  | c :: cs =>
    if listBeginsWith label (c :: cs) then some ((c :: cs).drop label.length)
    else afterLabel label cs

/-- Parse the amount that follows a `Total Premium` label: skip punctuation
and whitespace up to the currency symbol or first digit, then apply the
tolerant numeric parser. -/
def amountAfterLabel (cs : List Char) : Option Nat :=
  parseCentsClean (stripSymbol
    ((cs.dropWhile (fun c => !(c.isDigit || c == 'R'))).filter keepChar))

/-- The total-premium amount on one line, if the line carries the label. -/
def lineAmount (l : List Char) : Option Nat :=
  match afterLabel "Total Premium".toList l with
  | some after => amountAfterLabel after
  | none => none

/-- Modelled from the spec: detection of the document's total-premium line —
the first line carrying a `Total Premium` label with a parseable amount. -/
def detectTotalPremiumCents (text : String) : Option Nat :=
  (splitLinesAux text.toList).findSome? lineAmount

/-- Modelled from the spec: the Field Extractor.  It fails (with
`FieldExtractionFailed`) only when the input text has zero usable characters;
otherwise it produces a Quote, normalizing a detected total premium to the
currency-string representation and falling back to the `"unknown"` sentinel
when no total premium is recognizable.  (Section extraction is modelled
separately by `sectionKey`.) -/
def extractFields (text : String) : Except ExtractError QuoteResult :=
  if usableCharCount text = 0 then .error .fieldExtractionFailed
  else .ok
    { quote_number := 1
      vendor := "Unknown"
      total_premium :=
        match detectTotalPremiumCents text with
        | some v => formatCents v
        | none => "unknown"
      payment_terms := "", contact_phone := "", contact_email := ""
      risk_address := "", client_details := "", quote_reference := ""
      quote_date := "", policy_sections := [] }

/- ### Section-name normalization (Modelled from the spec) -/

/-- Surface formatting around a section label: colons and blanks. -/
def isSectionJunk (c : Char) : Bool := c == ':' || c == ' ' || c == '\t'

/-- Drop trailing formatting characters. -/
def dropTrailingJunk (l : List Char) : List Char :=
  (l.reverse.dropWhile isSectionJunk).reverse

/-- Uppercase an ASCII letter. -/
def asciiUpper (c : Char) : Char :=
  if 97 ≤ c.toNat && c.toNat ≤ 122 then Char.ofNat (c.toNat - 32) else c

/-- Modelled from the spec: canonical form of a section label — strip
surrounding colons/blanks and fold case. -/
def cleanSectionName (s : String) : String :=
  String.mk (((dropTrailingJunk s.toList).dropWhile isSectionJunk).map asciiUpper)

/-- Modelled from the spec: the known taxonomy of recognized commercial
insurance sections (canonical form ↦ section key), as listed in the backend
README; a representative subset of the 33+ sections. -/
def SECTION_TAXONOMY : List (String × String) := [
  ("FIRE", "Fire"),
  ("BUILDINGS COMBINED", "Buildings Combined"),
  ("OFFICE CONTENTS", "Office Contents"),
  ("BUSINESS INTERRUPTION", "Business Interruption"),
  ("MOTOR GENERAL", "Motor General"),
  ("PUBLIC LIABILITY", "Public Liability"),
  ("EMPLOYERS LIABILITY", "Employers Liability"),
  ("SASRIA", "SASRIA"),
  ("PROFESSIONAL INDEMNITY", "Professional Indemnity"),
  ("CYBER INSURANCE", "Cyber Insurance"),
  ("MACHINERY BREAKDOWN", "Machinery Breakdown"),
  ("ELECTRONIC EQUIPMENT", "Electronic Equipment"),
  ("ACCOUNTS RECEIVABLE", "Accounts Receivable"),
  ("PLANT ALL RISK", "Plant All Risk"),
  ("CONTRACTOR ALL RISK", "Contractor All Risk")]

/-- Modelled from the spec: the section key a label is filed under in
`policy_sections` — the taxonomy entry for its canonical form, with
unrecognized sections captured under the generic `"Other"` bucket. -/
def sectionKey (s : String) : String :=
  (SECTION_TAXONOMY.lookup (cleanSectionName s)).getD "Other"

/- ### Comparison store and report generation (Modelled from the spec) -/

/-- Request-level errors surfaced by the read and report endpoints. -/
inductive ApiError where
  | notFound
  | badStatus (msg : String)
deriving Repr, DecidableEq

/-- Modelled from the spec: fetch-by-id over the process-wide id → Comparison
store — the current Comparison's quote list, or `NotFound` for an id that was
never created. -/
def getComparisonById (store : List (String × Comparison)) (comparisonId : String) :
    Except ApiError (List QuoteResult) :=
  match store.lookup comparisonId with
  | some c => .ok c.quotes
  | none => .error .notFound

/-- Modelled from the spec: report generation.  The Comparison must be in
`completed` status; the renderer's filename and the generation time are then
recorded back onto the Comparison. -/
def generateReportFor (c : Comparison) (filename : String) (now : Nat) :
    Except ApiError Comparison :=
  if c.status = "completed" then
    .ok { c with report_generated := true, report_filename := some filename,
                 report_generated_at := some now }
  else .error (.badStatus "Comparison is not completed")

/- ### Backend upload validation (Modelled from the spec) -/

/-- `UploadRejected`: wrong content type or oversize file. -/
inductive UploadError where
  | uploadRejected
deriving Repr, DecidableEq

/-- Modelled from the spec: the upload endpoint validates every file (PDF
content type, ≤ 20MB) before processing starts; a batch with an invalid file
is rejected with `UploadRejected` and no partial batch is created.  The
second component records the extraction calls that were made. -/
def backendUpload (extract : WebFile → ExtractionOutcome) (files : List WebFile) :
    Except UploadError Comparison × List String :=
  if files.all acceptFile then
    (.ok { comparison_id := "batch", created_at := 0, status := "completed"
           file_names := files.map WebFile.name
           quotes := uploadResults (files.map fun f => (f.name, extract f))
           report_generated := false, report_filename := none
           report_generated_at := none },
     files.map WebFile.name)
  else (.error .uploadRejected, [])

/- ### Claims -/

/-- C1: Uploading N files yields a Comparison with exactly N Quote entries,
in upload order — regardless of the order in which the independent per-file
extractions complete — including entries for files whose extraction
failed. -/
theorem c1_upload_preserves_count_and_order
    (files : List (String × ExtractionOutcome))
    (completions : List (Nat × QuoteResult))
    (hperm : completions.Perm (taggedResults files)) :
    assembleQuotes files.length completions = uploadResults files
    ∧ (assembleQuotes files.length completions).length = files.length := by
  have hlen : (uploadResults files).length = files.length := quotesFrom_length 0 files
  have hkeys : ((taggedResults files).map Prod.fst).Nodup := by
    rw [taggedResults, withKeys_map_fst]
    exact List.nodup_range' 0 (uploadResults files).length 1 (by omega)
  have hnd : (completions.map Prod.fst).Nodup :=
    ((hperm.map Prod.fst).nodup_iff).mpr hkeys
  have hpt : ∀ i, resultAt completions i = resultAt (taggedResults files) i :=
    resultAt_perm hperm hnd
  have hmain : assembleQuotes files.length completions = uploadResults files := by
    rw [assembleQuotes, List.filterMap_congr (fun i _ => hpt i), ← hlen, taggedResults]
    exact assembleQuotes_withKeys (uploadResults files) 0
  exact ⟨hmain, by rw [hmain, hlen]⟩

/-- C1 witness: a two-file batch (one successful extraction, one failed)
whose completions arrive in reversed order still assembles to the two quotes
in upload order. -/
theorem c1_upload_preserves_count_and_order_witness :
    ((taggedResults [("a.pdf", .ok "Hollard" "R100.00" []),
        ("b.pdf", .failed "backend unavailable")]).reverse).Perm
      (taggedResults [("a.pdf", .ok "Hollard" "R100.00" []),
        ("b.pdf", .failed "backend unavailable")])
    ∧ (assembleQuotes 2 ((taggedResults [("a.pdf", .ok "Hollard" "R100.00" []),
          ("b.pdf", .failed "backend unavailable")]).reverse)
        = uploadResults [("a.pdf", .ok "Hollard" "R100.00" []),
            ("b.pdf", .failed "backend unavailable")]
      ∧ (assembleQuotes 2 ((taggedResults [("a.pdf", .ok "Hollard" "R100.00" []),
          ("b.pdf", .failed "backend unavailable")]).reverse)).length = 2) :=
  ⟨by decide, c1_upload_preserves_count_and_order
    [("a.pdf", .ok "Hollard" "R100.00" []), ("b.pdf", .failed "backend unavailable")]
    ((taggedResults [("a.pdf", .ok "Hollard" "R100.00" []),
      ("b.pdf", .failed "backend unavailable")]).reverse) (by decide)⟩

/-- C2: the stats average is computed only over quotes whose premium string
parses to a number; a quote whose premium does not parse (in particular the
`"unknown"` sentinel) is excluded from the average, not treated as zero, and
the average of premiums R100, R200 and unknown is R150. -/
theorem c2_average_excludes_unparseable (ps : List String) (q : String)
    (h : parsePremiumCents q = none) :
    averagePremiumRands (ps ++ [q]) = averagePremiumRands ps
    ∧ parsePremiumCents "unknown" = none
    ∧ averagePremiumRands ["R100", "R200", "unknown"] = some 150 := by
  refine ⟨?_, by decide, ?_⟩
  · have hvals : premiumValuesCents (ps ++ [q]) = premiumValuesCents ps := by
      simp [premiumValuesCents, List.filterMap_append, h]
    rw [averagePremiumRands, averagePremiumRands, hvals]
  · have e1 : parsePremiumCents "R100" = some 10000 := by decide
    have e2 : parsePremiumCents "R200" = some 20000 := by decide
    have e3 : parsePremiumCents "unknown" = none := by decide
    have hvals : premiumValuesCents ["R100", "R200", "unknown"] = [10000, 20000] := by
      simp [premiumValuesCents, e1, e2, e3]
    rw [averagePremiumRands, hvals]
    norm_num

/-- C2 witness: instantiated at the quote set of the claim,
premiums R100 and R200 plus the unknown sentinel. -/
theorem c2_average_excludes_unparseable_witness :
    averagePremiumRands (["R100", "R200"] ++ ["unknown"]) = averagePremiumRands ["R100", "R200"]
    ∧ parsePremiumCents "unknown" = none
    ∧ averagePremiumRands ["R100", "R200", "unknown"] = some 150 :=
  c2_average_excludes_unparseable ["R100", "R200"] "unknown" (by decide)

/-- C3: fetching a Comparison by an id that was never created yields
`NotFound` from the store (never a default or empty Comparison object), and
the frontend client surfaces the resulting 404 response as an error, never as
data. -/
theorem c3_missing_comparison_not_found (store : List (String × Comparison))
    (comparisonId : String) (h : store.lookup comparisonId = none) :
    getComparisonById store comparisonId = .error .notFound
    ∧ (∀ (detail : Option String) (body : Except String (List QuoteResult)),
        (InsuranceAPI.request (.response false 404 detail body)).data = none
        ∧ (InsuranceAPI.request (T := List QuoteResult)
            (.response false 404 detail body)).error.isSome) := by
  constructor
  · rw [getComparisonById, h]
  · intro detail body
    cases detail <;> simp [InsuranceAPI.request]

/-- C3 witness: the empty store and a fresh id. -/
theorem c3_missing_comparison_not_found_witness :
    getComparisonById [] "nonexistent-id" = .error .notFound
    ∧ (∀ (detail : Option String) (body : Except String (List QuoteResult)),
        (InsuranceAPI.request (.response false 404 detail body)).data = none
        ∧ (InsuranceAPI.request (T := List QuoteResult)
            (.response false 404 detail body)).error.isSome) :=
  c3_missing_comparison_not_found [] "nonexistent-id" rfl

/-- C4: a file that exceeds the 20MB limit or is not a PDF never passes the
upload page filter (so no network call carries it), and a batch containing
such a file is rejected by the backend with `UploadRejected` before any
extraction call is made — no extraction call occurs and no partial batch is
created. -/
theorem c4_invalid_file_rejected_before_extraction
    (f : WebFile) (files : List WebFile) (extract : WebFile → ExtractionOutcome)
    (hmem : f ∈ files)
    (hbad : MAX_FILE_SIZE < f.size ∨ f.type ≠ "application/pdf") :
    f ∉ filterAcceptedFiles files
    ∧ (backendUpload extract files).1 = .error .uploadRejected
    ∧ (backendUpload extract files).2 = [] := by
  have hacc : acceptFile f = false := by
    rw [acceptFile]
    rcases hbad with hsize | htype
    · simp [MAX_FILE_SIZE] at hsize ⊢
      omega
    · simp [htype]
  have hall : files.all acceptFile = false := by
    by_contra hne
    have : files.all acceptFile = true := by
      cases hx : files.all acceptFile
      · exact absurd hx hne
      · rfl
    rw [List.all_eq_true] at this
    rw [this f hmem] at hacc
    exact Bool.true_eq_false.mp hacc
  refine ⟨?_, ?_, ?_⟩
  · intro hin
    rw [filterAcceptedFiles, List.mem_filter] at hin
    rw [hin.2] at hacc
    exact Bool.true_eq_false.mp hacc
  · rw [backendUpload, if_neg (by simp [hall])]
  · rw [backendUpload, if_neg (by simp [hall])]

/-- C4 witness: a PDF one byte over the 20MB limit, alone in the batch. -/
theorem c4_invalid_file_rejected_before_extraction_witness :
    (⟨"big.pdf", "application/pdf", 20971521⟩ : WebFile) ∈
        [(⟨"big.pdf", "application/pdf", 20971521⟩ : WebFile)]
    ∧ (MAX_FILE_SIZE < 20971521 ∨ ("application/pdf" : String) ≠ "application/pdf")
    ∧ ((⟨"big.pdf", "application/pdf", 20971521⟩ : WebFile) ∉
          filterAcceptedFiles [⟨"big.pdf", "application/pdf", 20971521⟩]
      ∧ (backendUpload (fun _ => .failed "unreached")
          [⟨"big.pdf", "application/pdf", 20971521⟩]).1 = .error .uploadRejected
      ∧ (backendUpload (fun _ => .failed "unreached")
          [⟨"big.pdf", "application/pdf", 20971521⟩]).2 = []) :=
  ⟨by decide, Or.inl (by decide),
    c4_invalid_file_rejected_before_extraction _ _ _ (by decide) (Or.inl (by decide))⟩

/-- C5: when no total premium is recognizable in a document with usable text,
the Field Extractor sets `total_premium` to the `"unknown"` sentinel and does
not raise an error; `FieldExtractionFailed` is raised exactly when the input
text has zero usable characters, never for partial extraction. -/
theorem c5_unknown_premium_is_not_an_error (text : String)
    (husable : usableCharCount text ≠ 0)
    (hnone : detectTotalPremiumCents text = none) :
    (∃ q, extractFields text = .ok q ∧ q.total_premium = "unknown")
    ∧ (∀ t, extractFields t = .error .fieldExtractionFailed ↔ usableCharCount t = 0) := by
  constructor
  · rw [extractFields, if_neg husable, hnone]
    exact ⟨_, rfl, rfl⟩
  · intro t
    constructor
    · intro he
      by_contra h0
      rw [extractFields, if_neg h0] at he
      simp at he
    · intro h0
      rw [extractFields, if_pos h0]

/-- C5 witness: a document with usable text but no recognizable total
premium. -/
theorem c5_unknown_premium_is_not_an_error_witness :
    (∃ q, extractFields "no premium here" = .ok q ∧ q.total_premium = "unknown")
    ∧ (∀ t, extractFields t = .error .fieldExtractionFailed ↔ usableCharCount t = 0) :=
  c5_unknown_premium_is_not_an_error "no premium here" (by decide) (by decide)

/-- C6: whenever the Field Extractor detects a total premium of `v` cents,
the `total_premium` string it records is the normalized currency
representation of `v`, and reparsing that string with the system's numeric
parser yields `v` again — the parse/format round trip. -/
theorem c6_total_premium_round_trip (text : String) (q : QuoteResult) (v : Nat)
    (hok : extractFields text = .ok q)
    (hdet : detectTotalPremiumCents text = some v) :
    q.total_premium = formatCents v ∧ parsePremiumCents q.total_premium = some v := by
  by_cases h0 : usableCharCount text = 0
  · rw [extractFields, if_pos h0] at hok
    simp at hok
  · rw [extractFields, if_neg h0, hdet] at hok
    injection hok with h
    subst h
    exact ⟨rfl, parse_formatCents v⟩

/-- C6 witness: a document whose total-premium line reads `R1,234.56`. -/
theorem c6_total_premium_round_trip_witness :
    ({ quote_number := 1, vendor := "Unknown", total_premium := "R1,234.56",
        payment_terms := "", contact_phone := "", contact_email := "",
        risk_address := "", client_details := "", quote_reference := "",
        quote_date := "", policy_sections := [] } : QuoteResult).total_premium
      = formatCents 123456
    ∧ parsePremiumCents
        ({ quote_number := 1, vendor := "Unknown", total_premium := "R1,234.56",
            payment_terms := "", contact_phone := "", contact_email := "",
            risk_address := "", client_details := "", quote_reference := "",
            quote_date := "", policy_sections := [] } : QuoteResult).total_premium
      = some 123456 :=
  c6_total_premium_round_trip "Quote\nTotal Premium: R1,234.56"
    { quote_number := 1, vendor := "Unknown", total_premium := "R1,234.56",
      payment_terms := "", contact_phone := "", contact_email := "",
      risk_address := "", client_details := "", quote_reference := "",
      quote_date := "", policy_sections := [] }
    123456 rfl (by decide)

/-- C7: two labels naming the same coverage section under different surface
formatting normalize to the same section key: a trailing colon never changes
the key, and in particular `"Buildings Combined"` and `"BUILDINGS COMBINED:"`
are filed under the same taxonomy key. -/
theorem c7_section_key_normalization :
    (∀ s : String, sectionKey (s ++ ":") = sectionKey s)
    ∧ sectionKey "Buildings Combined" = sectionKey "BUILDINGS COMBINED:"
    ∧ sectionKey "Buildings Combined" = "Buildings Combined" := by
  refine ⟨?_, by decide, by decide⟩
  intro s
  have hj : isSectionJunk ':' = true := by decide
  have htl : (s ++ ":").toList = s.toList ++ [':'] := rfl
  have hdt : dropTrailingJunk (s.toList ++ [':']) = dropTrailingJunk s.toList := by
    rw [dropTrailingJunk, dropTrailingJunk, List.reverse_append]
    simp [List.dropWhile_cons, hj]
  rw [sectionKey, sectionKey, cleanSectionName, cleanSectionName, htl, hdt]

/-- C8: generating a report a second time for a completed Comparison succeeds
again, records the new timestamp and filename, and leaves the quote list
unchanged — no duplicate Quote entries. -/
theorem c8_regenerated_report_keeps_quotes (c : Comparison) (f1 f2 : String)
    (t1 t2 : Nat) (hc : c.status = "completed") :
    ∃ c1 c2 : Comparison,
      generateReportFor c f1 t1 = .ok c1
      ∧ generateReportFor c1 f2 t2 = .ok c2
      ∧ c2.report_generated_at = some t2
      ∧ c2.report_filename = some f2
      ∧ c2.report_generated = true
      ∧ c2.quotes = c.quotes := by
  refine ⟨{ c with report_generated := true, report_filename := some f1, report_generated_at := some t1 }, { c with report_generated := true, report_filename := some f2, report_generated_at := some t2 }, ?_, ?_, rfl, rfl, rfl, rfl⟩
  · rw [generateReportFor, if_pos hc]
  · rw [generateReportFor, if_pos hc]

/-- C8 witness: a one-quote completed Comparison, report generated at times 1
and then 2. -/
theorem c8_regenerated_report_keeps_quotes_witness :
    ∃ c1 c2 : Comparison,
      generateReportFor
        { comparison_id := "cmp-1", created_at := 0, status := "completed",
          file_names := ["a.pdf"],
          quotes := uploadResults [("a.pdf", .ok "Hollard" "R100.00" [])],
          report_generated := false, report_filename := none,
          report_generated_at := none } "report-1.pdf" 1 = .ok c1
      ∧ generateReportFor c1 "report-2.pdf" 2 = .ok c2
      ∧ c2.report_generated_at = some 2
      ∧ c2.report_filename = some "report-2.pdf"
      ∧ c2.report_generated = true
      ∧ c2.quotes =
          ({ comparison_id := "cmp-1", created_at := 0, status := "completed",
             file_names := ["a.pdf"],
             quotes := uploadResults [("a.pdf", .ok "Hollard" "R100.00" [])],
             report_generated := false, report_filename := none,
             report_generated_at := none } : Comparison).quotes :=
  c8_regenerated_report_keeps_quotes
    { comparison_id := "cmp-1", created_at := 0, status := "completed",
      file_names := ["a.pdf"],
      quotes := uploadResults [("a.pdf", .ok "Hollard" "R100.00" [])],
      report_generated := false, report_filename := none,
      report_generated_at := none } "report-1.pdf" "report-2.pdf" 1 2 rfl

/-- C9: every request the `InsuranceAPI` client issues — JSON requests and
the multipart upload alike — carries the single static bearer token
`Bearer demo-token` in its Authorization header, and the (spec-modelled)
backend authentication is a comparison against that one static value. -/
theorem c9_static_bearer_token_on_every_request (m : ApiMethod) :
    headerValue (issuedHeaders AUTH_TOKEN m) "Authorization" = some "Bearer demo-token"
    ∧ verifyBearer "Bearer demo-token" = true := by
  cases m <;> exact ⟨rfl, rfl⟩

/-- C10: for every fetch outcome — success, non-OK HTTP status, body parse
failure, network failure — `request` and `uploadQuotes` return an
`ApiResponse` holding exactly one of a data value or an error string, and
every non-OK status yields the error field; no exception escapes. -/
theorem c10_client_returns_data_or_error (T : Type) (o : FetchOutcome T) :
    ((InsuranceAPI.request o).data.isSome ∧ (InsuranceAPI.request o).error = none
      ∨ (InsuranceAPI.request o).data = none ∧ (InsuranceAPI.request o).error.isSome)
    ∧ ((InsuranceAPI.uploadQuotes o).data.isSome ∧ (InsuranceAPI.uploadQuotes o).error = none
      ∨ (InsuranceAPI.uploadQuotes o).data = none ∧ (InsuranceAPI.uploadQuotes o).error.isSome)
    ∧ (∀ (status : Nat) (detail : Option String) (body : Except String T),
        (InsuranceAPI.request (.response false status detail body)).error.isSome
        ∧ (InsuranceAPI.uploadQuotes (.response false status detail body)).error.isSome) := by
  refine ⟨?_, ?_, ?_⟩
  · cases o with
    | networkFailure msg => right; simp [InsuranceAPI.request]
    | response ok status detail body =>
      cases ok with
      | false => right; cases detail <;> simp [InsuranceAPI.request]
      | true =>
        cases body with
        | ok d => left; simp [InsuranceAPI.request]
        | error msg => right; simp [InsuranceAPI.request]
  · cases o with
    | networkFailure msg => right; simp [InsuranceAPI.uploadQuotes]
    | response ok status detail body =>
      cases ok with
      | false => right; cases detail <;> simp [InsuranceAPI.uploadQuotes]
      | true =>
        cases body with
        | ok d => left; simp [InsuranceAPI.uploadQuotes]
        | error msg => right; simp [InsuranceAPI.uploadQuotes]
  · intro status detail body
    cases detail <;> simp [InsuranceAPI.request, InsuranceAPI.uploadQuotes]
